import Mathlib

/-!
Shallow embedding of `src/rust/src/main.rs` of Konard/gh-org-migrator.

The program reads `GITHUB_ACCESS_TOKEN` and `ORGANIZATION` from the
environment, creates `<cwd>/data/<organization>`, paginates the
organization's repository listing (writing `orgrepos.json`), and then,
for each repository name in order, paginates that repository's issues
(writing `<repoName>.issues.json`).  All failures are fatal (`expect`).

The embedding models the outside world (environment variables, paged
API responses with possible fetch failures, serialization outcomes) as
a `World`, and executes `main` as a pure function that produces a trace
of externally visible events (network calls, directory creation, file
writes, the final message) together with a success flag.
-/

namespace GhOrgMigrator

/-- A repository record as returned by the platform API: only `name` is
used for control flow, the remaining fields are opaque pass-through data. -/
structure Repository where
  name : String
  meta : String
  deriving DecidableEq, Repr

/-- An issue record as returned by the platform API: fully opaque
pass-through data. -/
structure Issue where
  title : String
  meta : String
  deriving DecidableEq, Repr

/-- Contents of an output file: the serialized (pretty-printed) record
list, modelled by the record list itself since `serde_json::to_string_pretty`
is a deterministic injective rendering. -/
inductive FileContent where
  | reposJson (repos : List Repository)
  | issuesJson (issues : List Issue)
  deriving DecidableEq, Repr

/-- Externally visible effects of a run, in order of occurrence. -/
inductive Event where
  | netCall
  | mkdir (path : String)
  | write (path : String) (content : FileContent)
  | println (msg : String)
  deriving DecidableEq, Repr

/-- A paginated upstream listing as the server will serve it: the result
of the initial `send()` and then the results of following successive
`next` links (`none` = that page fetch fails).  A `next` link is present
exactly while further entries remain in `rest`. -/
structure PagedSource (α : Type) where
  first : Option (List α)
  rest : List (Option (List α))

/-- One pagination loop (`loop { extend; follow next or break }`), started
on the result of the initial fetch.  Returns the number of page fetches
performed and `some` accumulated items, or `none` if some fetch failed. -/
def drainGo {α : Type} : List α → Option (List α) → List (Option (List α)) →
    Nat × Option (List α)
  | _, none, _ => (1, none)
  | acc, some items, [] => (1, some (acc ++ items))
  | acc, some items, r :: rs =>
    let p := drainGo (acc ++ items) r rs
    (p.1 + 1, p.2)

/-- Drain a paginated source completely, as `fetch_repositories` and
`fetch_issues` both do. -/
def drain {α : Type} (src : PagedSource α) : Nat × Option (List α) :=
  drainGo [] src.first src.rest

/-- A source all of whose page fetches succeed, serving the given pages
(an empty listing is served as one empty page with no next link). -/
def pureSource {α : Type} : List (List α) → PagedSource α
  | [] => ⟨some [], []⟩
  | p :: ps => ⟨some p, ps.map some⟩

/-- A server that honours the requested page size `n` splits the item
list into chunks of `n` (last chunk possibly shorter). -/
def chunk {α : Type} (n : Nat) (l : List α) : List (List α) :=
  match n, l with
  | _, [] => []
  | 0, _ => []
  | Nat.succ m, x :: xs =>
    ((x :: xs).take (m + 1)) :: chunk (m + 1) ((x :: xs).drop (m + 1))
termination_by l.length
decreasing_by
  simp [List.length_drop]
  omega

/-- The fixed page size requested by both `.per_page(100)` calls. -/
def per_page : Nat := 100

/-- The outside world a run interacts with: environment variables, the
current directory, the outcome of directory creation, the paged upstream
responses (keyed by organization, repository and requested page size),
and the outcomes of the two serialization steps. -/
structure World where
  github_access_token : Option String
  organization : Option String
  cwd : String
  mkdirOk : Bool
  repoPages : String → Nat → PagedSource Repository
  issuePages : String → String → Nat → PagedSource Issue
  serReposOk : Bool
  serIssuesOk : String → Bool

/-- Path of the repository-records output file. -/
def orgreposPath (outDir : String) : String :=
  outDir ++ "/orgrepos.json"

/-- Path of one repository's issues output file. -/
def issuesPath (outDir repoName : String) : String :=
  outDir ++ "/" ++ repoName ++ ".issues.json"

/-- `format!("{}/data/{}", cwd, organization)`. -/
def outputDir (w : World) (organization : String) : String :=
  w.cwd ++ "/data/" ++ organization

/-- Embedding of `fetch_repositories`: drain the organization's
repository listing at page size 100; on success serialize and write
`orgrepos.json` and return the repository names in listing order; any
page-fetch or serialization failure aborts (returns `none`). -/
def fetch_repositories (w : World) (organization outDir : String) :
    List Event × Option (List String) :=
  let r := drain (w.repoPages organization per_page)
  let netEvs : List Event := List.replicate r.1 Event.netCall
  match r.2 with
  | none => (netEvs, none)
  | some repos =>
    if w.serReposOk then
      (netEvs ++ [Event.write (orgreposPath outDir) (FileContent.reposJson repos)],
        some (repos.map Repository.name))
    else
      (netEvs, none)

/-- Embedding of `fetch_issues`: drain one repository's issue listing at
page size 100; on success serialize and write `<repoName>.issues.json`;
any page-fetch or serialization failure aborts (returns `false`). -/
def fetch_issues (w : World) (organization repoName outDir : String) :
    List Event × Bool :=
  let r := drain (w.issuePages organization repoName per_page)
  let netEvs : List Event := List.replicate r.1 Event.netCall
  match r.2 with
  | none => (netEvs, false)
  | some issues =>
    if w.serIssuesOk repoName then
      (netEvs ++ [Event.write (issuesPath outDir repoName) (FileContent.issuesJson issues)],
        true)
    else
      (netEvs, false)

/-- The `for repo_name in repo_names` loop of `main`: strictly sequential,
aborting at the first failing repository. -/
def runRepos (w : World) (organization outDir : String) :
    List String → List Event × Bool
  | [] => ([], true)
  | r :: rs =>
    let p := fetch_issues w organization r outDir
    if p.2 then
      let q := runRepos w organization outDir rs
      (p.1 ++ q.1, q.2)
    else
      (p.1, false)

/-- Embedding of `main`: read the two environment variables (missing
either aborts before any effect), create the output directory, list the
repositories, then fetch issues repository by repository; print the
completion message only on full success. -/
def main (w : World) : List Event × Bool :=
  match w.github_access_token with
  | none => ([], false)
  | some _ =>
    match w.organization with
    | none => ([], false)
    | some organization =>
      let outDir := outputDir w organization
      if w.mkdirOk then
        let fr := fetch_repositories w organization outDir
        match fr.2 with
        | none => (Event.mkdir outDir :: fr.1, false)
        | some repoNames =>
          let ri := runRepos w organization outDir repoNames
          if ri.2 then
            (Event.mkdir outDir :: (fr.1 ++ ri.1 ++
              [Event.println ("Data fetching completed. All data is stored in the "
                ++ outDir ++ " directory.")]), true)
          else
            (Event.mkdir outDir :: (fr.1 ++ ri.1), false)
      else
        ([Event.mkdir outDir], false)

/-- The files written during a trace, in order: path and content. -/
def writes (evs : List Event) : List (String × FileContent) :=
  evs.filterMap fun e =>
    match e with
    | Event.write p c => some (p, c)
    | _ => none

/-- The issue records one repository's completed drain accumulates. -/
def issuesOf (w : World) (organization repoName : String) : List Issue :=
  ((drain (w.issuePages organization repoName per_page)).2).getD []

/-- The repository records the completed repository drain accumulates. -/
def reposOf (w : World) (organization : String) : List Repository :=
  ((drain (w.repoPages organization per_page)).2).getD []

theorem drainGo_all_some {α : Type} (ps : List (List α)) (acc p : List α) :
    drainGo acc (some p) (ps.map some) = (ps.length + 1, some (acc ++ p ++ ps.flatten)) := by
  induction ps generalizing acc p with
  | nil => simp [drainGo]
  | cons q qs ih =>
    simp only [List.map_cons, drainGo, ih (acc ++ p) q, List.length_cons, List.flatten]
    simp [List.append_assoc]

theorem drain_pureSource {α : Type} (pages : List (List α)) :
    drain (pureSource pages) = (max 1 pages.length, some pages.flatten) := by
  cases pages with
  | nil => simp [drain, pureSource, drainGo]
  | cons p ps =>
    simp [drain, pureSource, drainGo_all_some, Nat.max_eq_right, Nat.succ_le_succ]

theorem writes_append (a b : List Event) : writes (a ++ b) = writes a ++ writes b := by
  simp [writes, List.filterMap_append]

theorem writes_replicate_netCall (n : Nat) :
    writes (List.replicate n Event.netCall) = [] := by
  induction n with
  | zero => simp [writes]
  | succ m ih => simp [writes, List.replicate_succ] at ih ⊢

theorem writes_single_write (p : String) (c : FileContent) :
    writes [Event.write p c] = [(p, c)] := by
  simp [writes]

theorem fetch_issues_writes (w : World) (organization repoName outDir : String) :
    writes (fetch_issues w organization repoName outDir).1 =
      (if (fetch_issues w organization repoName outDir).2 then
        [(issuesPath outDir repoName, FileContent.issuesJson (issuesOf w organization repoName))]
      else []) := by
  unfold fetch_issues issuesOf
  cases h : (drain (w.issuePages organization repoName per_page)).2 with
  | none => simp [h, writes_replicate_netCall]
  | some issues =>
    by_cases hs : w.serIssuesOk repoName = true
    · simp [h, hs, writes_append, writes_replicate_netCall, writes_single_write]
    · simp only [Bool.not_eq_true] at hs
      simp [h, hs, writes_replicate_netCall]

theorem fetch_issues_fail_trace (w : World) (organization repoName outDir : String)
    (h : (fetch_issues w organization repoName outDir).2 = false) :
    writes (fetch_issues w organization repoName outDir).1 = [] := by
  rw [fetch_issues_writes, h]
  simp

theorem fetch_repositories_ok (w : World) (organization outDir : String)
    (names : List String)
    (h : (fetch_repositories w organization outDir).2 = some names) :
    writes (fetch_repositories w organization outDir).1 =
      [(orgreposPath outDir, FileContent.reposJson (reposOf w organization))] ∧
    names = (reposOf w organization).map Repository.name := by
  unfold fetch_repositories at h ⊢
  unfold reposOf
  cases hd : (drain (w.repoPages organization per_page)).2 with
  | none => simp [hd] at h
  | some repos =>
    by_cases hs : w.serReposOk = true
    · simp only [hd, hs, if_true] at h ⊢
      simp only [Option.some.injEq] at h
      subst h
      simp [writes_append, writes_replicate_netCall, writes_single_write]
    · simp only [Bool.not_eq_true] at hs
      simp [hd, hs] at h

theorem runRepos_all_ok (w : World) (organization outDir : String)
    (names : List String)
    (h : ∀ r ∈ names, (fetch_issues w organization r outDir).2 = true) :
    (runRepos w organization outDir names).2 = true ∧
    writes (runRepos w organization outDir names).1 =
      names.map fun r =>
        (issuesPath outDir r, FileContent.issuesJson (issuesOf w organization r)) := by
  induction names with
  | nil => simp [runRepos, writes]
  | cons r rs ih =>
    have hr : (fetch_issues w organization r outDir).2 = true := h r (by simp)
    have hrs : ∀ x ∈ rs, (fetch_issues w organization x outDir).2 = true :=
      fun x hx => h x (by simp [hx])
    obtain ⟨h1, h2⟩ := ih hrs
    simp only [runRepos, hr, if_pos]
    refine ⟨h1, ?_⟩
    rw [writes_append, h2, fetch_issues_writes, hr]
    simp

theorem runRepos_fail (w : World) (organization outDir : String)
    (pre : List String) (bad : String) (post : List String)
    (hpre : ∀ r ∈ pre, (fetch_issues w organization r outDir).2 = true)
    (hbad : (fetch_issues w organization bad outDir).2 = false) :
    (runRepos w organization outDir (pre ++ bad :: post)).2 = false ∧
    writes (runRepos w organization outDir (pre ++ bad :: post)).1 =
      pre.map fun r =>
        (issuesPath outDir r, FileContent.issuesJson (issuesOf w organization r)) := by
  induction pre with
  | nil =>
    simp only [List.nil_append, runRepos, hbad]
    simp [fetch_issues_fail_trace w organization bad outDir hbad]
  | cons r rs ih =>
    have hr : (fetch_issues w organization r outDir).2 = true := hpre r (by simp)
    have hrs : ∀ x ∈ rs, (fetch_issues w organization x outDir).2 = true :=
      fun x hx => hpre x (by simp [hx])
    obtain ⟨h1, h2⟩ := ih hrs
    simp only [List.cons_append, runRepos, hr, if_pos, List.append_eq]
    refine ⟨h1, ?_⟩
    rw [writes_append, h2, fetch_issues_writes, hr]
    simp

theorem writes_cons_mkdir (p : String) (evs : List Event) :
    writes (Event.mkdir p :: evs) = writes evs := by
  simp [writes]

theorem writes_cons_println (m : String) (evs : List Event) :
    writes (Event.println m :: evs) = writes evs := by
  simp [writes]

theorem main_trace_ok (w : World) (tok org : String) (names : List String)
    (htok : w.github_access_token = some tok)
    (horg : w.organization = some org)
    (hmk : w.mkdirOk = true)
    (hfr : (fetch_repositories w org (outputDir w org)).2 = some names)
    (hrt : (runRepos w org (outputDir w org) names).2 = true) :
    main w = (Event.mkdir (outputDir w org) ::
      ((fetch_repositories w org (outputDir w org)).1 ++
        (runRepos w org (outputDir w org) names).1 ++
        [Event.println ("Data fetching completed. All data is stored in the "
          ++ outputDir w org ++ " directory.")]), true) := by
  simp [main, htok, horg, hmk, hfr, hrt]

theorem main_trace_fail (w : World) (tok org : String) (names : List String)
    (htok : w.github_access_token = some tok)
    (horg : w.organization = some org)
    (hmk : w.mkdirOk = true)
    (hfr : (fetch_repositories w org (outputDir w org)).2 = some names)
    (hrt : (runRepos w org (outputDir w org) names).2 = false) :
    main w = (Event.mkdir (outputDir w org) ::
      ((fetch_repositories w org (outputDir w org)).1 ++
        (runRepos w org (outputDir w org) names).1), false) := by
  simp [main, htok, horg, hmk, hfr, hrt]

theorem chunk_eq {α : Type} (n : Nat) (l : List α) (hn : n ≠ 0) (hl : l ≠ []) :
    chunk n l = l.take n :: chunk n (l.drop n) := by
  obtain ⟨m, rfl⟩ := Nat.exists_eq_succ_of_ne_zero hn
  obtain ⟨x, xs, rfl⟩ := List.exists_cons_of_ne_nil hl
  rw [chunk]

theorem chunk_nil {α : Type} (n : Nat) : chunk n ([] : List α) = [] := by
  rw [chunk]

/-- Splitting a list of more than 100 and at most 200 elements into pages
of 100 yields exactly two pages. -/
theorem chunk_two_pages {α : Type} (l : List α)
    (h1 : 100 < l.length) (h2 : l.length ≤ 200) :
    chunk 100 l = [l.take 100, l.drop 100] := by
  have hl : l ≠ [] := by
    intro h
    subst h
    simp at h1
  rw [chunk_eq 100 l (by omega) hl]
  have hd : (l.drop 100).length = l.length - 100 := List.length_drop 100 l
  have hdne : l.drop 100 ≠ [] := by
    intro h
    rw [h] at hd
    simp at hd
    omega
  rw [chunk_eq 100 (l.drop 100) (by omega) hdne]
  have ht : (l.drop 100).take 100 = l.drop 100 :=
    List.take_of_length_le (by omega)
  have hdd : (l.drop 100).drop 100 = [] :=
    List.drop_eq_nil_of_le (by omega)
  rw [ht, hdd, chunk_nil]

/-! ### Concrete worlds used to witness the hypotheses of the theorems -/

/-- Repository record used in the "acme" scenario. -/
def coreRepo : Repository := { name := "core", meta := "core-metadata" }

/-- Repository record used in the "acme" scenario. -/
def webRepo : Repository := { name := "web", meta := "web-metadata" }

/-- The three issues of the "core" repository in the "acme" scenario. -/
def coreIssues : List Issue :=
  [{ title := "bug one", meta := "i1" },
   { title := "bug two", meta := "i2" },
   { title := "feature", meta := "i3" }]

/-- The "acme" scenario world: two repositories, three issues on `core`,
none on `web`, everything succeeding. -/
def wAcme : World where
  github_access_token := some "token"
  organization := some "acme"
  cwd := "."
  mkdirOk := true
  repoPages := fun _ _ => pureSource [[coreRepo, webRepo]]
  issuePages := fun _ r _ => if r = "core" then pureSource [coreIssues] else pureSource []
  serReposOk := true
  serIssuesOk := fun _ => true

/-- A world with no access token in the environment. -/
def wNoToken : World where
  github_access_token := none
  organization := some "acme"
  cwd := "."
  mkdirOk := true
  repoPages := fun _ _ => pureSource []
  issuePages := fun _ _ _ => pureSource []
  serReposOk := true
  serIssuesOk := fun _ => true

/-- A paginated source whose second page fetch fails. -/
def badSource {α : Type} : PagedSource α := ⟨some [], [none]⟩

/-- A world where fetching the issues of repository `web` fails on a page
fetch, while everything else succeeds. -/
def wFail : World where
  github_access_token := some "token"
  organization := some "acme"
  cwd := "."
  mkdirOk := true
  repoPages := fun _ _ => pureSource [[coreRepo, webRepo]]
  issuePages := fun _ r _ => if r = "web" then badSource else pureSource [coreIssues]
  serReposOk := true
  serIssuesOk := fun _ => true

/-- A world where every page listing fails on its second page fetch. -/
def wBad : World where
  github_access_token := some "token"
  organization := some "acme"
  cwd := "."
  mkdirOk := true
  repoPages := fun _ _ => badSource
  issuePages := fun _ _ _ => badSource
  serReposOk := true
  serIssuesOk := fun _ => true

/-- 150 repository records, for the two-page pagination scenario. -/
def repos150 : List Repository :=
  List.replicate 150 { name := "r", meta := "" }

/-- A world whose repository listing honours the requested page size by
chunking `repos150`. -/
def w150 : World where
  github_access_token := some "token"
  organization := some "acme"
  cwd := "."
  mkdirOk := true
  repoPages := fun _ n => pureSource (chunk n repos150)
  issuePages := fun _ _ _ => pureSource []
  serReposOk := true
  serIssuesOk := fun _ => true

/-! ### The claims -/

/-- Claim C2: for every sequence of pages served by the paginated listing,
the collection written to disk is the in-order concatenation of all pages'
items — nothing duplicated, lost or reordered — both for the repository
lister and for the issue fetcher. -/
theorem C2_pagination_complete (w : World) (organization repoName outDir : String)
    (rpages : List (List Repository)) (ipages : List (List Issue))
    (hr : w.repoPages organization per_page = pureSource rpages)
    (hsr : w.serReposOk = true)
    (hi : w.issuePages organization repoName per_page = pureSource ipages)
    (hsi : w.serIssuesOk repoName = true) :
    writes (fetch_repositories w organization outDir).1 =
      [(orgreposPath outDir, FileContent.reposJson rpages.flatten)] ∧
    (fetch_repositories w organization outDir).2 =
      some (rpages.flatten.map Repository.name) ∧
    writes (fetch_issues w organization repoName outDir).1 =
      [(issuesPath outDir repoName, FileContent.issuesJson ipages.flatten)] ∧
    (fetch_issues w organization repoName outDir).2 = true := by
  refine ⟨?_, ?_, ?_, ?_⟩ <;>
    simp [fetch_repositories, fetch_issues, hr, hi, hsr, hsi, drain_pureSource,
      writes_append, writes_replicate_netCall, writes_single_write]

/-- Witness for C2 at the concrete "acme" world. -/
theorem C2_pagination_complete_witness :
    writes (fetch_repositories wAcme "acme" "./data/acme").1 =
      [(orgreposPath "./data/acme", FileContent.reposJson [coreRepo, webRepo])] ∧
    (fetch_repositories wAcme "acme" "./data/acme").2 = some ["core", "web"] ∧
    writes (fetch_issues wAcme "acme" "core" "./data/acme").1 =
      [(issuesPath "./data/acme" "core", FileContent.issuesJson coreIssues)] ∧
    (fetch_issues wAcme "acme" "core" "./data/acme").2 = true := by
  have h := C2_pagination_complete wAcme "acme" "core" "./data/acme"
    [[coreRepo, webRepo]] [coreIssues] rfl rfl rfl rfl
  simpa [coreRepo, webRepo] using h

/-- Claim C3: if `GITHUB_ACCESS_TOKEN` or `ORGANIZATION` is absent, the
program terminates fatally with an empty effect trace: no network call,
no directory creation, no file write. -/
theorem C3_missing_config_no_effects (w : World)
    (h : w.github_access_token = none ∨ w.organization = none) :
    main w = ([], false) := by
  cases h with
  | inl h => simp [main, h]
  | inr h =>
    cases htok : w.github_access_token with
    | none => simp [main, htok]
    | some t => simp [main, htok, h]

/-- Witness for C3 at a world with no access token. -/
theorem C3_missing_config_no_effects_witness :
    wNoToken.github_access_token = none ∧ main wNoToken = ([], false) :=
  ⟨rfl, C3_missing_config_no_effects wNoToken (Or.inl rfl)⟩

/-- Claim C5: the pagination loop requests the first page at the fixed
page size 100 and follows next links until none remains; a 150-item
listing served in 100-item pages takes exactly 2 page fetches and yields
all 150 items in their original order. -/
theorem C5_two_page_fetch (w : World) (organization outDir : String)
    (repos : List Repository)
    (hlen : repos.length = 150)
    (hserve : w.repoPages organization per_page = pureSource (chunk per_page repos))
    (hs : w.serReposOk = true) :
    per_page = 100 ∧
    drain (w.repoPages organization per_page) = (2, some repos) ∧
    fetch_repositories w organization outDir =
      (List.replicate 2 Event.netCall ++
        [Event.write (orgreposPath outDir) (FileContent.reposJson repos)],
        some (repos.map Repository.name)) := by
  have hchunk : chunk per_page repos = [repos.take 100, repos.drop 100] := by
    show chunk 100 repos = _
    exact chunk_two_pages repos (by omega) (by omega)
  have hdrain : drain (w.repoPages organization per_page) = (2, some repos) := by
    rw [hserve, hchunk, drain_pureSource]
    simp [List.take_append_drop]
  refine ⟨rfl, hdrain, ?_⟩
  simp [fetch_repositories, hdrain, hs]

/-- Witness for C5 at a 150-element repository listing. -/
theorem C5_two_page_fetch_witness :
    repos150.length = 150 ∧
    drain (w150.repoPages "acme" per_page) = (2, some repos150) := by
  have h := C5_two_page_fetch w150 "acme" "./data/acme" repos150
    (by simp [repos150]) rfl rfl
  exact ⟨by simp [repos150], h.2.1⟩

/-- Claim C7: the issue fetcher applies no filtering: the file written for
a repository contains exactly the issues its drained listing returned, all
of them. -/
theorem C7_no_filtering (w : World) (organization repoName outDir : String)
    (n : Nat) (issues : List Issue)
    (hd : drain (w.issuePages organization repoName per_page) = (n, some issues))
    (hs : w.serIssuesOk repoName = true) :
    fetch_issues w organization repoName outDir =
      (List.replicate n Event.netCall ++
        [Event.write (issuesPath outDir repoName) (FileContent.issuesJson issues)],
        true) ∧
    writes (fetch_issues w organization repoName outDir).1 =
      [(issuesPath outDir repoName, FileContent.issuesJson issues)] := by
  have h : fetch_issues w organization repoName outDir =
      (List.replicate n Event.netCall ++
        [Event.write (issuesPath outDir repoName) (FileContent.issuesJson issues)],
        true) := by
    simp [fetch_issues, hd, hs]
  refine ⟨h, ?_⟩
  rw [h]
  simp [writes_append, writes_replicate_netCall, writes_single_write]

/-- Witness for C7 at the "core" repository of the "acme" world. -/
theorem C7_no_filtering_witness :
    writes (fetch_issues wAcme "acme" "core" "./data/acme").1 =
      [(issuesPath "./data/acme" "core", FileContent.issuesJson coreIssues)] :=
  (C7_no_filtering wAcme "acme" "core" "./data/acme" 1 coreIssues rfl rfl).2

/-- Claim C10: per-unit atomicity: an output file is written only once
every page of its listing has been drained and serialized successfully;
if a page fetch or serialization fails, the trace holds only the network
calls — no file, not even a partial one, is written for that unit. -/
theorem C10_per_unit_atomicity (w : World) (organization repoName outDir : String) :
    ((drain (w.issuePages organization repoName per_page)).2 = none ∨
        w.serIssuesOk repoName = false →
      fetch_issues w organization repoName outDir =
        (List.replicate (drain (w.issuePages organization repoName per_page)).1
          Event.netCall, false) ∧
      writes (fetch_issues w organization repoName outDir).1 = []) ∧
    ((drain (w.repoPages organization per_page)).2 = none ∨ w.serReposOk = false →
      fetch_repositories w organization outDir =
        (List.replicate (drain (w.repoPages organization per_page)).1
          Event.netCall, none) ∧
      writes (fetch_repositories w organization outDir).1 = []) := by
  constructor
  · intro h
    have he : fetch_issues w organization repoName outDir =
        (List.replicate (drain (w.issuePages organization repoName per_page)).1
          Event.netCall, false) := by
      cases h with
      | inl h => simp [fetch_issues, h]
      | inr h =>
        unfold fetch_issues
        cases hd : (drain (w.issuePages organization repoName per_page)).2 <;>
          simp [h, hd]
    refine ⟨he, ?_⟩
    rw [he]
    simp [writes_replicate_netCall]
  · intro h
    have he : fetch_repositories w organization outDir =
        (List.replicate (drain (w.repoPages organization per_page)).1
          Event.netCall, none) := by
      cases h with
      | inl h => simp [fetch_repositories, h]
      | inr h =>
        unfold fetch_repositories
        cases hd : (drain (w.repoPages organization per_page)).2 <;>
          simp [h, hd]
    refine ⟨he, ?_⟩
    rw [he]
    simp [writes_replicate_netCall]

/-- Witness for C10 at a world whose page fetches fail. -/
theorem C10_per_unit_atomicity_witness :
    writes (fetch_issues wBad "acme" "core" "./data/acme").1 = [] ∧
    writes (fetch_repositories wBad "acme" "./data/acme").1 = [] :=
  ⟨((C10_per_unit_atomicity wBad "acme" "core" "./data/acme").1 (Or.inl rfl)).2,
   ((C10_per_unit_atomicity wBad "acme" "core" "./data/acme").2 (Or.inl rfl)).2⟩

theorem writes_println_singleton (m : String) : writes [Event.println m] = [] := by
  simp [writes]

/-- Claim C1: a fully successful run over an organization whose lister
returns R repository names produces exactly R+1 file writes: the
`orgrepos.json` write plus one `<name>.issues.json` write per name. -/
theorem C1_output_file_count (w : World) (tok org : String) (names : List String)
    (htok : w.github_access_token = some tok)
    (horg : w.organization = some org)
    (hmk : w.mkdirOk = true)
    (hfr : (fetch_repositories w org (outputDir w org)).2 = some names)
    (hall : ∀ r ∈ names, (fetch_issues w org r (outputDir w org)).2 = true) :
    (main w).2 = true ∧
    (writes (main w).1).map Prod.fst =
      orgreposPath (outputDir w org) :: names.map (issuesPath (outputDir w org)) ∧
    (writes (main w).1).length = names.length + 1 := by
  obtain ⟨hfw, hnames⟩ := fetch_repositories_ok w org (outputDir w org) names hfr
  obtain ⟨hrt, hrw⟩ := runRepos_all_ok w org (outputDir w org) names hall
  have hm := main_trace_ok w tok org names htok horg hmk hfr hrt
  rw [hm]
  simp only [writes_cons_mkdir, writes_append, writes_println_singleton,
    List.append_nil, hfw, hrw]
  refine ⟨trivial, ?_, ?_⟩
  · simp [List.map_map, Function.comp]
  · simp

/-- Witness for C1 at the "acme" world with its two repositories. -/
theorem C1_output_file_count_witness :
    (main wAcme).2 = true ∧
    (writes (main wAcme).1).map Prod.fst =
      orgreposPath (outputDir wAcme "acme") ::
        ["core", "web"].map (issuesPath (outputDir wAcme "acme")) ∧
    (writes (main wAcme).1).length = ["core", "web"].length + 1 :=
  C1_output_file_count wAcme "token" "acme" ["core", "web"] rfl rfl rfl rfl
    (by decide)

/-- Claim C4: when a page fetch fails while draining the issues of the
i-th repository (here: the one after `pre`, with `i = pre.length + 1`),
the run aborts with the issues files of repositories 1..i-1 (and
`orgrepos.json`) written and no file written for the failing repository
or any later one. -/
theorem C4_failure_keeps_earlier_files (w : World) (tok org bad : String)
    (pre post : List String)
    (htok : w.github_access_token = some tok)
    (horg : w.organization = some org)
    (hmk : w.mkdirOk = true)
    (hfr : (fetch_repositories w org (outputDir w org)).2 = some (pre ++ bad :: post))
    (hpre : ∀ r ∈ pre, (fetch_issues w org r (outputDir w org)).2 = true)
    (hbad : (drain (w.issuePages org bad per_page)).2 = none) :
    (main w).2 = false ∧
    (writes (main w).1).map Prod.fst =
      orgreposPath (outputDir w org) :: pre.map (issuesPath (outputDir w org)) := by
  have hbf : (fetch_issues w org bad (outputDir w org)).2 = false := by
    simp [fetch_issues, hbad]
  obtain ⟨hfw, hnames⟩ := fetch_repositories_ok w org (outputDir w org) _ hfr
  obtain ⟨hrt, hrw⟩ := runRepos_fail w org (outputDir w org) pre bad post hpre hbf
  have hm := main_trace_fail w tok org (pre ++ bad :: post) htok horg hmk hfr hrt
  rw [hm]
  simp only [writes_cons_mkdir, writes_append, hfw, hrw]
  refine ⟨trivial, ?_⟩
  simp [List.map_map, Function.comp]

/-- Witness for C4: in `wFail` the second repository's issue listing
fails, so only `orgrepos.json` and `core.issues.json` get written. -/
theorem C4_failure_keeps_earlier_files_witness :
    (main wFail).2 = false ∧
    (writes (main wFail).1).map Prod.fst =
      orgreposPath (outputDir wFail "acme") ::
        ["core"].map (issuesPath (outputDir wFail "acme")) :=
  C4_failure_keeps_earlier_files wFail "token" "acme" "web" ["core"] [] rfl rfl rfl
    rfl (by decide) rfl

/-- Claim C6: the repository lister returns the ordered repository names
and, as its only side effect beyond the page fetches, writes the full
accumulated records to `<cwd>/data/<organization>/orgrepos.json`; the run
creates that directory (first event) before any write. -/
theorem C6_repository_lister_contract (w : World) (tok org : String)
    (n : Nat) (repos : List Repository)
    (htok : w.github_access_token = some tok)
    (horg : w.organization = some org)
    (hmk : w.mkdirOk = true)
    (hd : drain (w.repoPages org per_page) = (n, some repos))
    (hs : w.serReposOk = true) :
    fetch_repositories w org (outputDir w org) =
      (List.replicate n Event.netCall ++
        [Event.write (orgreposPath (outputDir w org)) (FileContent.reposJson repos)],
        some (repos.map Repository.name)) ∧
    orgreposPath (outputDir w org) = w.cwd ++ "/data/" ++ org ++ "/orgrepos.json" ∧
    (main w).1.head? = some (Event.mkdir (outputDir w org)) := by
  refine ⟨by simp [fetch_repositories, hd, hs], rfl, ?_⟩
  simp only [main, htok, horg, hmk, if_true]
  split <;> (try split) <;> simp

/-- Witness for C6 at the "acme" world. -/
theorem C6_repository_lister_contract_witness :
    fetch_repositories wAcme "acme" (outputDir wAcme "acme") =
      (List.replicate 1 Event.netCall ++
        [Event.write (orgreposPath (outputDir wAcme "acme"))
          (FileContent.reposJson [coreRepo, webRepo])],
        some ([coreRepo, webRepo].map Repository.name)) ∧
    orgreposPath (outputDir wAcme "acme") =
      wAcme.cwd ++ "/data/" ++ "acme" ++ "/orgrepos.json" ∧
    (main wAcme).1.head? = some (Event.mkdir (outputDir wAcme "acme")) :=
  C6_repository_lister_contract wAcme "token" "acme" 1 [coreRepo, webRepo]
    rfl rfl rfl rfl rfl

/-- Claim C8: the run is deterministic in its inputs: two worlds agreeing
on the environment, the served upstream pages and the serialization
outcomes produce identical traces, hence byte-identical output files. -/
theorem C8_deterministic (w₁ w₂ : World)
    (h1 : w₁.github_access_token = w₂.github_access_token)
    (h2 : w₁.organization = w₂.organization)
    (h3 : w₁.cwd = w₂.cwd)
    (h4 : w₁.mkdirOk = w₂.mkdirOk)
    (h5 : w₁.repoPages = w₂.repoPages)
    (h6 : w₁.issuePages = w₂.issuePages)
    (h7 : w₁.serReposOk = w₂.serReposOk)
    (h8 : w₁.serIssuesOk = w₂.serIssuesOk) :
    main w₁ = main w₂ ∧ writes (main w₁).1 = writes (main w₂).1 := by
  have hw : w₁ = w₂ := by
    cases w₁
    cases w₂
    simp_all
  rw [hw]
  exact ⟨rfl, rfl⟩

/-- Witness for C8: two syntactically identical worlds. -/
theorem C8_deterministic_witness :
    main wAcme = main wAcme ∧ writes (main wAcme).1 = writes (main wAcme).1 :=
  C8_deterministic wAcme wAcme rfl rfl rfl rfl rfl rfl rfl rfl

/-- Claim C9: the concrete "acme" scenario (repositories `core` and `web`,
3 issues on `core`, 0 on `web`) writes `orgrepos.json` with 2 entries,
`core.issues.json` with 3 entries and `web.issues.json` with an empty
array, under `data/acme/`. -/
theorem C9_acme_scenario :
    (main wAcme).2 = true ∧
    writes (main wAcme).1 =
      [("./data/acme/orgrepos.json", FileContent.reposJson [coreRepo, webRepo]),
       ("./data/acme/core.issues.json", FileContent.issuesJson coreIssues),
       ("./data/acme/web.issues.json", FileContent.issuesJson [])] ∧
    [coreRepo, webRepo].length = 2 ∧ coreIssues.length = 3 ∧
    ("./" ++ "data/acme/orgrepos.json" = "./data/acme/orgrepos.json") ∧
    ("./" ++ "data/acme/core.issues.json" = "./data/acme/core.issues.json") ∧
    ("./" ++ "data/acme/web.issues.json" = "./data/acme/web.issues.json") := by
  refine ⟨rfl, ?_, rfl, rfl, rfl, rfl, rfl⟩
  decide

end GhOrgMigrator
